import Mathlib

/-!
Verification of the core of `whisper_dictate.py`: hotkey parsing, keyboard
device filtering, the evdev multiplexer loop, and the recording session
state machine.  All definitions are shallow embeddings of the Python source;
times are modelled in integer milliseconds (the debounce window `0.3 s`
becomes `300`, the processing deadline `120 s` becomes `120000`).
-/

namespace WhisperDictate

/-! ### evdev keycode constants (`linux/input-event-codes.h`) -/

def EV_KEY : Nat := 1

def KEY_ESC : Nat := 1
def KEY_TAB : Nat := 15
def KEY_ENTER : Nat := 28
def KEY_SPACE : Nat := 57
def KEY_BACKSPACE : Nat := 14
def KEY_DELETE : Nat := 111
def KEY_UP : Nat := 103
def KEY_DOWN : Nat := 108
def KEY_LEFT : Nat := 105
def KEY_RIGHT : Nat := 106
def KEY_HOME : Nat := 102
def KEY_END : Nat := 107
def KEY_PAGEUP : Nat := 104
def KEY_PAGEDOWN : Nat := 109
def KEY_INSERT : Nat := 110
def KEY_PAUSE : Nat := 119
def KEY_CAPSLOCK : Nat := 58

def KEY_LEFTCTRL : Nat := 29
def KEY_RIGHTCTRL : Nat := 97
def KEY_LEFTALT : Nat := 56
def KEY_RIGHTALT : Nat := 100
def KEY_LEFTSHIFT : Nat := 42
def KEY_RIGHTSHIFT : Nat := 54
def KEY_LEFTMETA : Nat := 125
def KEY_RIGHTMETA : Nat := 126

def KEY_A : Nat := 30
def KEY_Z : Nat := 44

/-- `KEY_F1 .. KEY_F12`, indexed 1-12. -/
def fnKeycode (i : Nat) : Nat :=
  if i ≤ 10 then 58 + i else 76 + i

/-- evdev keycode of a lower-case letter (`KEY_A` .. `KEY_M`, qwerty layout). -/
def alphaKeycode (c : Char) : Option Nat :=
  match c with
  | 'a' => some 30 | 'b' => some 48 | 'c' => some 46 | 'd' => some 32
  | 'e' => some 18 | 'f' => some 33 | 'g' => some 34 | 'h' => some 35
  | 'i' => some 23 | 'j' => some 36 | 'k' => some 37 | 'l' => some 38
  | 'm' => some 50 | 'n' => some 49 | 'o' => some 24 | 'p' => some 25
  | 'q' => some 16 | 'r' => some 19 | 's' => some 31 | 't' => some 20
  | 'u' => some 22 | 'v' => some 47 | 'w' => some 17 | 'x' => some 45
  | 'y' => some 21 | 'z' => some 44
  | _ => none

/-- evdev keycode of a digit character (`KEY_1 = 2`, ..., `KEY_0 = 11`). -/
def digitKeycode (c : Char) : Option Nat :=
  match c with
  | '0' => some 11 | '1' => some 2 | '2' => some 3 | '3' => some 4
  | '4' => some 5 | '5' => some 6 | '6' => some 7 | '7' => some 8
  | '8' => some 9 | '9' => some 10
  | _ => none

/-- The 26 alphabetic keycodes, the reading of "full alphabetic key range
(KEY_A through KEY_Z)" used by the specification. -/
def letterKeycodes : List Nat :=
  [30, 48, 46, 32, 18, 33, 34, 35, 23, 36, 37, 38, 50,
   49, 24, 25, 16, 19, 31, 20, 22, 47, 17, 45, 21, 44]

/-! ### String helpers mirroring the Python string operations -/

/-- Python `str.lower()` restricted to ASCII (hotkey combos are ASCII). -/
def pyLower (s : String) : String :=
  ⟨s.data.map Char.toLower⟩

/-- Python `str.strip()`: drop leading and trailing whitespace. -/
def pyStrip (s : String) : String :=
  ⟨((s.data.dropWhile Char.isWhitespace).reverse.dropWhile Char.isWhitespace).reverse⟩

/-- Python `str.split('+')` (keeps empty fields, `"" ↦ [""]`). -/
def splitPlusAux (l : List Char) : List (List Char) :=
  l.foldr
    (fun ch acc =>
      match acc with
      | [] => [[ch]]
      | g :: gs => if ch = '+' then [] :: g :: gs else (ch :: g) :: gs)
    [[]]

def splitPlus (s : String) : List String :=
  (splitPlusAux s.data).map fun l => ⟨l⟩

/-! ### `parse_hotkey_evdev` -/

/-- A parsed trigger: a single keycode (`trigger = <int>` in the source), or a
frozenset of keycodes after the modifier-only promotion. -/
inductive TriggerVal where
  | key (c : Nat)
  | keys (s : List Nat)
  deriving DecidableEq, Repr

/-- `_MODIFIER_NAMES`: modifier token → its left/right keycode pair. -/
def modifierLookup (s : String) : Option (List Nat) :=
  if s = "ctrl" ∨ s = "<ctrl>" then some [KEY_LEFTCTRL, KEY_RIGHTCTRL]
  else if s = "alt" ∨ s = "<alt>" then some [KEY_LEFTALT, KEY_RIGHTALT]
  else if s = "shift" ∨ s = "<shift>" then some [KEY_LEFTSHIFT, KEY_RIGHTSHIFT]
  else if s = "super" ∨ s = "<super>" ∨ s = "cmd" ∨ s = "<cmd>" then
    some [KEY_LEFTMETA, KEY_RIGHTMETA]
  else none

/-- `_KEY_NAMES`: named non-modifier key → its keycode. -/
def keyNameLookup (s : String) : Option Nat :=
  if s = "space" then some KEY_SPACE
  else if s = "enter" then some KEY_ENTER
  else if s = "tab" then some KEY_TAB
  else if s = "esc" then some KEY_ESC
  else if s = "backspace" then some KEY_BACKSPACE
  else if s = "delete" then some KEY_DELETE
  else if s = "up" then some KEY_UP
  else if s = "down" then some KEY_DOWN
  else if s = "left" then some KEY_LEFT
  else if s = "right" then some KEY_RIGHT
  else if s = "home" then some KEY_HOME
  else if s = "end" then some KEY_END
  else if s = "pageup" then some KEY_PAGEUP
  else if s = "pagedown" then some KEY_PAGEDOWN
  else if s = "insert" then some KEY_INSERT
  else if s = "pause" then some KEY_PAUSE
  else if s = "capslock" then some KEY_CAPSLOCK
  else if s = "f1" then some (fnKeycode 1)
  else if s = "f2" then some (fnKeycode 2)
  else if s = "f3" then some (fnKeycode 3)
  else if s = "f4" then some (fnKeycode 4)
  else if s = "f5" then some (fnKeycode 5)
  else if s = "f6" then some (fnKeycode 6)
  else if s = "f7" then some (fnKeycode 7)
  else if s = "f8" then some (fnKeycode 8)
  else if s = "f9" then some (fnKeycode 9)
  else if s = "f10" then some (fnKeycode 10)
  else if s = "f11" then some (fnKeycode 11)
  else if s = "f12" then some (fnKeycode 12)
  else none

/-- `part.isalpha()` guard for a one-character token (ASCII embedding). -/
def isAlphaTok (t : String) : Prop :=
  t.length = 1 ∧ (t.data.headI).isAlpha = true

/-- `part.isdigit()` guard for a one-character token (ASCII embedding). -/
def isDigitTok (t : String) : Prop :=
  t.length = 1 ∧ (t.data.headI).isDigit = true

instance (t : String) : Decidable (isAlphaTok t) := by
  unfold isAlphaTok; infer_instance

instance (t : String) : Decidable (isDigitTok t) := by
  unfold isDigitTok; infer_instance

/-- Parser accumulator: `(modifiers, trigger)` as in the source's loop. -/
abbrev ParseAcc := List (List Nat) × Option TriggerVal

/-- The body of the `for part in parts` loop, on an already-stripped token.
Mirrors the `if/elif` chain of `parse_hotkey_evdev` exactly; note that the
single-character branches assign the raw `getattr(..., None)` result, so a
one-character alphabetic token that does not resolve clobbers `trigger`. -/
def parseCore (acc : ParseAcc) (part : String) : ParseAcc :=
  match modifierLookup part with
  | some codes => (acc.1 ++ [codes], acc.2)
  | none =>
    match keyNameLookup part with
    | some c => (acc.1, some (TriggerVal.key c))
    | none =>
      if isAlphaTok part then
        (acc.1, (alphaKeycode (part.data.headI)).map TriggerVal.key)
      else if isDigitTok part then
        (acc.1, (digitKeycode (part.data.headI)).map TriggerVal.key)
      else acc

/-- The full parsing loop over the `+`-separated tokens (each stripped). -/
def parseTokens (parts : List String) : ParseAcc :=
  parts.foldl (fun acc p => parseCore acc (pyStrip p)) ([], none)

/-- The post-loop modifier-only promotion of `parse_hotkey_evdev`. -/
def promoteModifierOnly (acc : ParseAcc) : ParseAcc :=
  match acc with
  | (m :: [], none) => ([], some (TriggerVal.keys m))
  | _ => acc

/-- `parse_hotkey_evdev(hotkey_str)`: lower-case, split on `+`, run the token
loop, then promote a lone modifier to the trigger. -/
def parse_hotkey_evdev (hotkey_str : String) : ParseAcc :=
  promoteModifierOnly (parseTokens (splitPlus (pyLower hotkey_str)))

/-- The keycode a stripped non-modifier token resolves to, combining the
`_KEY_NAMES` branch and the two single-character branches of the parser. -/
def triggerResolve (part : String) : Option Nat :=
  match keyNameLookup part with
  | some c => some c
  | none =>
    if isAlphaTok part then alphaKeycode part.data.headI
    else if isDigitTok part then digitKeycode part.data.headI
    else none

/-- A token that, after stripping, matches none of the parser's branches. -/
def unrecognizedTok (p : String) : Prop :=
  modifierLookup (pyStrip p) = none ∧ keyNameLookup (pyStrip p) = none ∧
  ¬ isAlphaTok (pyStrip p) ∧ ¬ isDigitTok (pyStrip p)

instance (p : String) : Decidable (unrecognizedTok p) := by
  unfold unrecognizedTok; infer_instance

/-! ### `find_keyboard_devices` -/

/-- Outcome of `evdev.InputDevice(path)` + `.capabilities()` for one
enumerated path: the capability dictionary (event type → keycodes), or one
of the two caught exception classes. -/
inductive RawOpen where
  | ok (caps : List (Nat × List Nat))
  | permissionDenied
  | otherError
  deriving DecidableEq, Repr

/-- One entry of `evdev.list_devices()` together with what opening it yields. -/
structure RawDevice where
  path : Nat
  result : RawOpen
  deriving DecidableEq, Repr

/-- An accepted keyboard device as kept in the `devices` list. -/
structure InputDevice where
  path : Nat
  caps : List (Nat × List Nat)
  deriving DecidableEq, Repr

/-- The acceptance test of `find_keyboard_devices`: `EV_KEY` capabilities
exist and contain both `KEY_A` and `KEY_Z`. -/
def keyboardAccept (caps : List (Nat × List Nat)) : Bool :=
  match caps.lookup EV_KEY with
  | some keys => keys.contains KEY_A && keys.contains KEY_Z
  | none => false

/-- The body of the `for path in evdev.list_devices()` loop: accept a
keyboard, count a `PermissionError`, skip (`continue`) another `OSError`. -/
def findStep (acc : List InputDevice × Nat) (src : RawDevice) :
    List InputDevice × Nat :=
  match src.result with
  | RawOpen.ok caps =>
    if keyboardAccept caps then (acc.1 ++ [⟨src.path, caps⟩], acc.2) else acc
  | RawOpen.permissionDenied => (acc.1, acc.2 + 1)
  | RawOpen.otherError => acc

/-- `find_keyboard_devices`: fold over the enumeration, accepting keyboards,
counting `PermissionError`s, skipping other `OSError`s. -/
def find_keyboard_devices (sources : List RawDevice) : List InputDevice × Nat :=
  sources.foldl findStep ([], 0)

/-- The device an enumeration entry contributes to the accepted list, if any
(used to state the characterization of `find_keyboard_devices`). -/
def acceptedDevice (src : RawDevice) : Option InputDevice :=
  match src.result with
  | RawOpen.ok caps =>
    if keyboardAccept caps then some ⟨src.path, caps⟩ else none
  | RawOpen.permissionDenied => none
  | RawOpen.otherError => none

/-! ### The multiplexer loop of `run_hotkey_listener` -/

/-- One evdev input event (`event.type`, `event.code`, `event.value`). -/
structure KeyEvent where
  etype : Nat
  code : Nat
  value : Nat
  deriving DecidableEq, Repr

/-- Python `set.add` on the pressed-key set (kept as a duplicate-free list). -/
def insertKey (c : Nat) (l : List Nat) : List Nat :=
  if c ∈ l then l else c :: l

/-- State of the listener loop: `pressed_keys`, `last_trigger`, `keyboards`. -/
structure ListenerState where
  pressed_keys : List Nat
  last_trigger : Nat
  keyboards : List InputDevice
  deriving DecidableEq, Repr

/-- `all(any(k in pressed_keys for k in mod_set) for mod_set in modifiers)`. -/
def allModsHeld (modifiers : List (List Nat)) (pressed : List Nat) : Bool :=
  modifiers.all fun mod_set => mod_set.any fun k => pressed.contains k

/-- The debounce window: `0.3` seconds, i.e. 300 ms. -/
def DEBOUNCE_MS : Nat := 300

/-- Handling of a single event inside the `for event in dev.read()` loop,
at wall-clock time `now`: update `pressed_keys` from the transition value,
then fire the callback on a debounced, modifier-satisfied trigger key-down.
Returns the new state and whether the callback was invoked. -/
def processEvent (modifiers : List (List Nat)) (trigger_keys : List Nat)
    (now : Nat) (st : ListenerState) (ev : KeyEvent) : ListenerState × Bool :=
  if ev.etype ≠ EV_KEY then (st, false)
  else
    let pressed :=
      if ev.value = 1 then insertKey ev.code st.pressed_keys
      else if ev.value = 0 then st.pressed_keys.erase ev.code
      else st.pressed_keys
    if ev.code ∈ trigger_keys ∧ ev.value = 1 then
      if allModsHeld modifiers pressed ∧ now - st.last_trigger > DEBOUNCE_MS then
        ({ st with pressed_keys := pressed, last_trigger := now }, true)
      else
        ({ st with pressed_keys := pressed }, false)
    else
      ({ st with pressed_keys := pressed }, false)

/-- One observable input to an iteration of the `while True` loop: a key
event read at time `now`, or a per-device read error (`OSError`/`IOError`
inside `dev.read()`), or an error from `select` itself.  An error input
carries the device enumeration that the subsequent `find_keyboard_devices`
rediscovery call sees. -/
inductive LoopItem where
  | ev (now : Nat) (e : KeyEvent)
  | readError (env : List RawDevice)
  | selectError (env : List RawDevice)
  deriving DecidableEq, Repr

/-- One step of the multiplexer loop.  Both error handlers rebuild
`keyboards` from a fresh `find_keyboard_devices` call (dropping the
permission count) and touch nothing else — in particular `pressed_keys`
is left as it was. -/
def loopStep (modifiers : List (List Nat)) (trigger_keys : List Nat)
    (st : ListenerState) (item : LoopItem) : ListenerState × Bool :=
  match item with
  | LoopItem.ev now e => processEvent modifiers trigger_keys now st e
  | LoopItem.readError env =>
    ({ st with keyboards := (find_keyboard_devices env).1 }, false)
  | LoopItem.selectError env =>
    ({ st with keyboards := (find_keyboard_devices env).1 }, false)

/-- Run the loop over a finite trace, counting callback invocations. -/
def runLoop (modifiers : List (List Nat)) (trigger_keys : List Nat)
    (st : ListenerState) (items : List LoopItem) : ListenerState × Nat :=
  items.foldl
    (fun acc item =>
      let step := loopStep modifiers trigger_keys acc.1 item
      (step.1, acc.2 + (if step.2 then 1 else 0)))
    (st, 0)

/-- `run_hotkey_listener(hotkey_str, callback)` over a finite trace of loop
inputs.  `Except.error 1` models the two `sys.exit(1)` paths (unparsable
trigger; no keyboard found at startup); both happen before the loop is
entered.  A normal run returns the final listener state and the number of
callback invocations. -/
def run_hotkey_listener (hotkey_str : String) (env : List RawDevice)
    (items : List LoopItem) : Except Nat (ListenerState × Nat) :=
  let parsed := parse_hotkey_evdev hotkey_str
  match parsed.2 with
  | none => Except.error 1
  | some t =>
    let trigger_keys := match t with
      | TriggerVal.key c => [c]
      | TriggerVal.keys s => s
    let keyboards := (find_keyboard_devices env).1
    if keyboards.isEmpty then Except.error 1
    else Except.ok (runLoop parsed.1 trigger_keys ⟨[], 0, keyboards⟩ items)

/-! ### The recording session state machine (`WhisperDictation`) -/

/-- The shared session fields guarded by `self.lock`; `deadline = 0` encodes
"no deadline recorded" (`self._processing_deadline = 0`). -/
structure Session where
  is_recording : Bool
  is_processing : Bool
  deadline : Nat
  deriving DecidableEq, Repr

/-- The idle session every reset path converges to. -/
def idleSession : Session := ⟨false, false, 0⟩

/-- The processing deadline: `time.time() + 120` seconds, i.e. 120000 ms. -/
def PROCESSING_TIMEOUT_MS : Nat := 120000

/-- `WhisperDictation._is_stuck` at wall-clock time `now`: if processing
with a recorded deadline in the past, reset everything and report `true`. -/
def isStuckStep (s : Session) (now : Nat) : Session × Bool :=
  if s.is_processing = true ∧ s.deadline > 0 ∧ now > s.deadline then
    (idleSession, true)
  else (s, false)

/-- `WhisperDictation.toggle_recording` at wall-clock time `now`: run the
stuck check, refuse while processing, otherwise start a recording (returned
`Bool` is whether a worker thread was spawned). -/
def toggle_recording (s : Session) (now : Nat) : Session × Bool :=
  let s1 := (isStuckStep s now).1
  if s1.is_processing = true then (s1, false)
  else if s1.is_recording = false then
    (⟨true, true, now + PROCESSING_TIMEOUT_MS⟩, true)
  else (s1, false)

/-! ### The spawned worker (`record` + `_process_text`) -/

/-- Outcome of the blocking `self.recorder.text()` call: a transcript
string, or an exception. -/
inductive RecorderResult where
  | text (s : String)
  | raises
  deriving DecidableEq, Repr

/-- The `if text and text.strip():` delivery guard of `_process_text`. -/
def deliveryGuard (t : String) : Bool :=
  decide (t ≠ "") && decide (pyStrip t ≠ "")

/-- The spawned worker thread (`record`), run to completion: feeds the
recorder result through `_process_text`, whose `finally` clears
`is_processing`; an exception anywhere lands in `record`'s `except`, which
also clears `is_processing`; `record`'s own `finally` then clears
`is_recording` and the deadline.  `deliveryRaises` says whether the
`type_text` call raised.  Returns the final session and the text handed to
`type_text` (the transcript plus one trailing space), if any. -/
def workerRun (s : Session) (res : RecorderResult) (deliveryRaises : Bool) :
    Session × Option String :=
  match res with
  | RecorderResult.text t =>
    let delivered := if deliveryGuard t then some (t ++ " ") else none
    -- `_process_text`'s finally: is_processing := false; if `type_text`
    -- raised, `record`'s except clears is_processing again; `record`'s
    -- finally: is_recording := false, deadline := 0.  All paths agree:
    let _ := deliveryRaises
    let s1 : Session := ⟨s.is_recording, false, s.deadline⟩
    (⟨false, s1.is_processing, 0⟩, delivered)
  | RecorderResult.raises =>
    (⟨false, false, 0⟩, none)

/-! ## Theorems -/

lemma processEvent_fired_iff (modifiers : List (List Nat)) (trigger_keys : List Nat)
    (now : Nat) (st : ListenerState) (ev : KeyEvent) :
    (processEvent modifiers trigger_keys now st ev).2 = true ↔
      (ev.etype = EV_KEY ∧ ev.value = 1 ∧ ev.code ∈ trigger_keys ∧
       allModsHeld modifiers (insertKey ev.code st.pressed_keys) = true ∧
       now - st.last_trigger > DEBOUNCE_MS) := by
  unfold processEvent
  split_ifs with h1 h2 <;> simp_all
  split_ifs <;> simp_all

lemma processEvent_repeat_inert (modifiers : List (List Nat)) (trigger_keys : List Nat)
    (now : Nat) (st : ListenerState) (ev : KeyEvent)
    (h0 : ev.value ≠ 0) (h1 : ev.value ≠ 1) :
    (processEvent modifiers trigger_keys now st ev).1.pressed_keys = st.pressed_keys ∧
    (processEvent modifiers trigger_keys now st ev).2 = false := by
  unfold processEvent
  split_ifs <;> simp_all

lemma processEvent_fire_eq (modifiers : List (List Nat)) (trigger_keys : List Nat)
    (now : Nat) (st : ListenerState) (ev : KeyEvent)
    (h1 : ev.etype = EV_KEY) (h2 : ev.value = 1) (h3 : ev.code ∈ trigger_keys)
    (h4 : allModsHeld modifiers (insertKey ev.code st.pressed_keys) = true)
    (h5 : now - st.last_trigger > DEBOUNCE_MS) :
    processEvent modifiers trigger_keys now st ev =
      ({ st with pressed_keys := insertKey ev.code st.pressed_keys,
                 last_trigger := now }, true) := by
  unfold processEvent
  split_ifs <;> simp_all

lemma processEvent_nofire_eq (modifiers : List (List Nat)) (trigger_keys : List Nat)
    (now : Nat) (st : ListenerState) (ev : KeyEvent)
    (h1 : ev.etype = EV_KEY) (h2 : ev.value = 1) (h3 : ev.code ∈ trigger_keys)
    (h4 : allModsHeld modifiers (insertKey ev.code st.pressed_keys) = true)
    (h5 : ¬ now - st.last_trigger > DEBOUNCE_MS) :
    processEvent modifiers trigger_keys now st ev =
      ({ st with pressed_keys := insertKey ev.code st.pressed_keys }, false) := by
  unfold processEvent
  split_ifs <;> simp_all

/-- C1: one step of the multiplexer invokes the `on_trigger` callback exactly
when the event is an `EV_KEY` key-down (value 1) of a keycode in the trigger
equivalence set, every modifier equivalence set has a member in the pressed-key
set at that instant (the trigger key itself having just been inserted), and the
debounce window since the last accepted trigger has elapsed; an event whose
value is neither 0 nor 1 (a key repeat) never changes the pressed-key set and
never fires the callback. -/
theorem multiplexer_trigger_iff (modifiers : List (List Nat)) (trigger_keys : List Nat)
    (now : Nat) (st : ListenerState) (ev : KeyEvent) :
    ((processEvent modifiers trigger_keys now st ev).2 = true ↔
      (ev.etype = EV_KEY ∧ ev.value = 1 ∧ ev.code ∈ trigger_keys ∧
       allModsHeld modifiers (insertKey ev.code st.pressed_keys) = true ∧
       now - st.last_trigger > DEBOUNCE_MS)) ∧
    (ev.value ≠ 0 → ev.value ≠ 1 →
      (processEvent modifiers trigger_keys now st ev).1.pressed_keys = st.pressed_keys ∧
      (processEvent modifiers trigger_keys now st ev).2 = false) :=
  ⟨processEvent_fired_iff modifiers trigger_keys now st ev,
   fun h0 h1 => processEvent_repeat_inert modifiers trigger_keys now st ev h0 h1⟩

theorem multiplexer_trigger_iff_witness :
    (processEvent [[29, 97]] [57] 1000 ⟨[29], 0, []⟩ ⟨1, 57, 1⟩).2 = true ∧
    (processEvent [[29, 97]] [57] 1000 ⟨[29], 0, []⟩ ⟨1, 57, 2⟩).2 = false :=
  ⟨(multiplexer_trigger_iff [[29, 97]] [57] 1000 ⟨[29], 0, []⟩ ⟨1, 57, 1⟩).1.mpr
     (by decide),
   ((multiplexer_trigger_iff [[29, 97]] [57] 1000 ⟨[29], 0, []⟩ ⟨1, 57, 2⟩).2
     (by decide) (by decide)).2⟩

/-- C2: if the session is processing with a recorded deadline that wall-clock
time has passed, `toggle_recording` first resets the session to idle (the
stuck check clears both flags and the deadline) and the same call then
proceeds to record: it leaves the session recording/processing with a fresh
deadline and spawns a worker. -/
theorem stuck_toggle_resets_then_records (s : Session) (now : Nat)
    (hp : s.is_processing = true) (hd : 0 < s.deadline) (ht : s.deadline < now) :
    isStuckStep s now = (idleSession, true) ∧
    toggle_recording s now = (⟨true, true, now + PROCESSING_TIMEOUT_MS⟩, true) := by
  have hs : isStuckStep s now = (idleSession, true) := by
    unfold isStuckStep
    rw [if_pos ⟨hp, hd, ht⟩]
  refine ⟨hs, ?_⟩
  unfold toggle_recording
  rw [hs]
  simp [idleSession]

theorem stuck_toggle_resets_then_records_witness :
    isStuckStep ⟨false, true, 100⟩ 200 = (idleSession, true) ∧
    toggle_recording ⟨false, true, 100⟩ 200 = (⟨true, true, 120200⟩, true) :=
  stuck_toggle_resets_then_records ⟨false, true, 100⟩ 200 rfl (by decide) (by decide)

/-- C3: if the session is processing and the deadline has not passed,
`toggle_recording` is a no-op: the session is returned unchanged and no
worker is spawned. -/
theorem busy_toggle_is_noop (s : Session) (now : Nat)
    (hp : s.is_processing = true) (ht : ¬ now > s.deadline) :
    toggle_recording s now = (s, false) := by
  have hs : isStuckStep s now = (s, false) := by
    unfold isStuckStep
    rw [if_neg]
    rintro ⟨-, -, h3⟩
    exact ht h3
  unfold toggle_recording
  rw [hs]
  simp [hp]

theorem busy_toggle_is_noop_witness :
    toggle_recording ⟨false, true, 300⟩ 200 = (⟨false, true, 300⟩, false) :=
  busy_toggle_is_noop ⟨false, true, 300⟩ 200 rfl (by decide)

/-- C4: for two trigger-satisfying key-down edges at times `t1` and `t2`, the
first of which is accepted, the callback runs exactly once when the second
edge falls within 300 ms of the first (and the last-trigger time stays `t1`),
and exactly twice when the edges are at least 301 ms apart. -/
theorem debounce_two_edges (modifiers : List (List Nat)) (trigger_keys : List Nat)
    (st : ListenerState) (e1 e2 : KeyEvent) (t1 t2 : Nat)
    (he1 : e1.etype = EV_KEY ∧ e1.value = 1 ∧ e1.code ∈ trigger_keys)
    (he2 : e2.etype = EV_KEY ∧ e2.value = 1 ∧ e2.code ∈ trigger_keys)
    (hm1 : allModsHeld modifiers (insertKey e1.code st.pressed_keys) = true)
    (hm2 : allModsHeld modifiers
      (insertKey e2.code (insertKey e1.code st.pressed_keys)) = true)
    (hd1 : t1 - st.last_trigger > DEBOUNCE_MS) :
    (t2 - t1 ≤ DEBOUNCE_MS →
      (runLoop modifiers trigger_keys st [LoopItem.ev t1 e1, LoopItem.ev t2 e2]).2 = 1 ∧
      (runLoop modifiers trigger_keys st
        [LoopItem.ev t1 e1, LoopItem.ev t2 e2]).1.last_trigger = t1) ∧
    (t2 - t1 ≥ DEBOUNCE_MS + 1 →
      (runLoop modifiers trigger_keys st [LoopItem.ev t1 e1, LoopItem.ev t2 e2]).2 = 2) := by
  obtain ⟨ha1, hb1, hc1⟩ := he1
  obtain ⟨ha2, hb2, hc2⟩ := he2
  have step1 := processEvent_fire_eq modifiers trigger_keys t1 st e1 ha1 hb1 hc1 hm1 hd1
  constructor
  · intro hle
    have hnd : ¬ t2 - t1 > DEBOUNCE_MS := by omega
    have step2 := processEvent_nofire_eq modifiers trigger_keys t2
      ({ st with pressed_keys := insertKey e1.code st.pressed_keys, last_trigger := t1 })
      e2 ha2 hb2 hc2 hm2 hnd
    refine ⟨?_, ?_⟩ <;> simp [runLoop, loopStep, step1, step2]
  · intro hge
    have hd2 : t2 - t1 > DEBOUNCE_MS := by omega
    have step2 := processEvent_fire_eq modifiers trigger_keys t2
      ({ st with pressed_keys := insertKey e1.code st.pressed_keys, last_trigger := t1 })
      e2 ha2 hb2 hc2 hm2 hd2
    simp [runLoop, loopStep, step1, step2]

theorem debounce_two_edges_witness :
    (runLoop [] [57] ⟨[], 0, []⟩ [LoopItem.ev 1000 ⟨1, 57, 1⟩, LoopItem.ev 1200 ⟨1, 57, 1⟩]).2 = 1 ∧
    (runLoop [] [57] ⟨[], 0, []⟩ [LoopItem.ev 1000 ⟨1, 57, 1⟩, LoopItem.ev 1301 ⟨1, 57, 1⟩]).2 = 2 :=
  ⟨((debounce_two_edges [] [57] ⟨[], 0, []⟩ ⟨1, 57, 1⟩ ⟨1, 57, 1⟩ 1000 1200
      (by decide) (by decide) (by decide) (by decide) (by decide)).1 (by decide)).1,
   (debounce_two_edges [] [57] ⟨[], 0, []⟩ ⟨1, 57, 1⟩ ⟨1, 57, 1⟩ 1000 1301
      (by decide) (by decide) (by decide) (by decide) (by decide)).2 (by decide)⟩

/-- C5 counterexample: a ctrl key-down arrives via one of two devices, the
device is then lost (read I/O error) and the device list is rebuilt to the
one remaining device — yet the pressed-key set still contains the ctrl
keycode, refuting the claim that the pressed-key set is empty immediately
after the rebuild. -/
theorem rebuild_keeps_pressed_counterexample :
    runLoop [[29, 97]] [57]
        ⟨[], 0, [⟨3, [(1, [30, 44])]⟩, ⟨4, [(1, [30, 44])]⟩]⟩
        [LoopItem.ev 1000 ⟨1, 29, 1⟩,
         LoopItem.readError [⟨4, RawOpen.ok [(1, [30, 44])]⟩]]
      = (⟨[29], 0, [⟨4, [(1, [30, 44])]⟩]⟩, 0) ∧
    ([29] : List Nat) ≠ [] := by
  refine ⟨rfl, by decide⟩

/-- C5 amended: after a read I/O error the loop rebuilds the device list via
`find_keyboard_devices` but leaves the pressed-key set untouched (it is not
cleared), fires no callback, and a keycode marked down via the lost device
still satisfies a modifier check that asks for it. -/
theorem rebuild_preserves_pressed (modifiers : List (List Nat)) (trigger_keys : List Nat)
    (st : ListenerState) (env : List RawDevice) (k : Nat)
    (hk : k ∈ st.pressed_keys) :
    (loopStep modifiers trigger_keys st (LoopItem.readError env)).1.pressed_keys
        = st.pressed_keys ∧
    (loopStep modifiers trigger_keys st (LoopItem.readError env)).1.keyboards
        = (find_keyboard_devices env).1 ∧
    (loopStep modifiers trigger_keys st (LoopItem.readError env)).2 = false ∧
    allModsHeld [[k]]
      ((loopStep modifiers trigger_keys st (LoopItem.readError env)).1.pressed_keys)
      = true := by
  refine ⟨rfl, rfl, rfl, ?_⟩
  simp only [loopStep, allModsHeld, List.all_cons, List.all_nil, Bool.and_true,
    List.any_cons, List.any_nil, Bool.or_false]
  simpa using hk

theorem rebuild_preserves_pressed_witness :
    (loopStep [[29, 97]] [57] ⟨[29], 0, [⟨3, [(1, [30, 44])]⟩]⟩
        (LoopItem.readError [])).1.pressed_keys = [29] ∧
    allModsHeld [[29]]
      ((loopStep [[29, 97]] [57] ⟨[29], 0, [⟨3, [(1, [30, 44])]⟩]⟩
        (LoopItem.readError [])).1.pressed_keys) = true :=
  ⟨(rebuild_preserves_pressed [[29, 97]] [57] ⟨[29], 0, [⟨3, [(1, [30, 44])]⟩]⟩ [] 29
      (by decide)).1,
   (rebuild_preserves_pressed [[29, 97]] [57] ⟨[29], 0, [⟨3, [(1, [30, 44])]⟩]⟩ [] 29
      (by decide)).2.2.2⟩

/-- C6 counterexample: a source whose `EV_KEY` capabilities list only
`KEY_A` and `KEY_Z` (missing the other 24 letters) is accepted by
`find_keyboard_devices`, refuting the claim that a device is accepted only
if its capability set includes every keycode of the alphabetic range. -/
theorem keyboard_filter_counterexample :
    (find_keyboard_devices [⟨0, RawOpen.ok [(EV_KEY, [KEY_A, KEY_Z])]⟩]).1
      = [⟨0, [(EV_KEY, [KEY_A, KEY_Z])]⟩] ∧
    ¬ (∀ k ∈ letterKeycodes, k ∈ [KEY_A, KEY_Z]) := by
  refine ⟨rfl, by decide⟩

lemma findStep_foldl : ∀ (sources : List RawDevice) (acc : List InputDevice × Nat),
    (sources.foldl findStep acc).1 = acc.1 ++ sources.filterMap acceptedDevice ∧
    (sources.foldl findStep acc).2
      = acc.2 + sources.countP fun src => src.result == RawOpen.permissionDenied
  | [], acc => by simp
  | src :: rest, acc => by
    obtain ⟨ih1, ih2⟩ := findStep_foldl rest (findStep acc src)
    cases h : src.result with
    | ok caps =>
      by_cases hkb : keyboardAccept caps = true <;>
        simp_all [findStep, acceptedDevice, List.countP_cons, h, hkb]
    | permissionDenied =>
      simp_all [findStep, acceptedDevice, List.countP_cons, h]
      omega
    | otherError =>
      simp_all [findStep, acceptedDevice, List.countP_cons, h]

lemma keyboardAccept_iff (caps : List (Nat × List Nat)) :
    keyboardAccept caps = true ↔
    ∃ keys, caps.lookup EV_KEY = some keys ∧ KEY_A ∈ keys ∧ KEY_Z ∈ keys := by
  unfold keyboardAccept
  cases h : caps.lookup EV_KEY <;> simp

/-- C6 amended: every device accepted by `find_keyboard_devices` has `EV_KEY`
capabilities containing both endpoint keycodes `KEY_A` and `KEY_Z` (only
those two are checked, not the whole range), and the returned count equals
the number of enumeration entries whose open failed with a permission error
— the call is total: failures are counted or skipped, never propagated. -/
theorem keyboard_filter_endpoints (sources : List RawDevice) (d : InputDevice)
    (hd : d ∈ (find_keyboard_devices sources).1) :
    (∃ keys, d.caps.lookup EV_KEY = some keys ∧ KEY_A ∈ keys ∧ KEY_Z ∈ keys) ∧
    (find_keyboard_devices sources).2
      = sources.countP (fun src => src.result == RawOpen.permissionDenied) := by
  obtain ⟨h1, h2⟩ := findStep_foldl sources ([], 0)
  constructor
  · have hmem : d ∈ sources.filterMap acceptedDevice := by
      have := hd
      rw [find_keyboard_devices] at this
      rw [h1] at this
      simpa using this
    obtain ⟨src, hsrc, hacc⟩ := List.mem_filterMap.mp hmem
    rw [acceptedDevice] at hacc
    cases hres : src.result with
    | ok caps =>
      rw [hres] at hacc
      by_cases hkb : keyboardAccept caps = true
      · simp only [hkb, if_true] at hacc
        obtain rfl : (⟨src.path, caps⟩ : InputDevice) = d := by
          injection hacc
        exact (keyboardAccept_iff caps).mp hkb
      · simp [hkb] at hacc
    | permissionDenied =>
      rw [hres] at hacc
      simp at hacc
    | otherError =>
      rw [hres] at hacc
      simp at hacc
  · rw [find_keyboard_devices, h2]
    simp

theorem keyboard_filter_endpoints_witness :
    (∃ keys, ([(1, [30, 44])] : List (Nat × List Nat)).lookup EV_KEY = some keys ∧
        KEY_A ∈ keys ∧ KEY_Z ∈ keys) ∧
    (find_keyboard_devices
        [⟨0, RawOpen.ok [(1, [30, 44])]⟩, ⟨1, RawOpen.permissionDenied⟩]).2
      = ([⟨0, RawOpen.ok [(1, [30, 44])]⟩,
          (⟨1, RawOpen.permissionDenied⟩ : RawDevice)].countP
          fun src => src.result == RawOpen.permissionDenied) :=
  keyboard_filter_endpoints
    [⟨0, RawOpen.ok [(1, [30, 44])]⟩, ⟨1, RawOpen.permissionDenied⟩]
    ⟨0, [(1, [30, 44])]⟩ (by decide)

/-- C7: whenever the token loop of `parse_hotkey_evdev` ends with no resolved
trigger and exactly one parsed modifier set, the parse result promotes that
modifier's full equivalence set to the trigger and clears the modifier list;
the hypotheses constrain only the loop's end state, so the position of the
modifier token in the combo string is irrelevant. -/
theorem modifier_only_promotion (hotkey_str : String) (m : List Nat)
    (h1 : (parseTokens (splitPlus (pyLower hotkey_str))).2 = none)
    (h2 : (parseTokens (splitPlus (pyLower hotkey_str))).1 = [m]) :
    parse_hotkey_evdev hotkey_str = ([], some (TriggerVal.keys m)) := by
  have h3 : parseTokens (splitPlus (pyLower hotkey_str)) = ([m], none) := by
    cases hx : parseTokens (splitPlus (pyLower hotkey_str)) with
    | mk a b =>
      rw [hx] at h1 h2
      simp only at h1 h2
      rw [h1, h2]
  rw [parse_hotkey_evdev, h3]
  rfl

theorem modifier_only_promotion_witness :
    parse_hotkey_evdev "foo+alt" = ([], some (TriggerVal.keys [56, 100])) :=
  modifier_only_promotion "foo+alt" [56, 100] (by decide) (by decide)

/-- C8 counterexample: a transcript consisting of a single space is non-empty,
yet the worker delivers nothing, refuting the claim that every non-empty
transcript is delivered. -/
theorem worker_blank_transcript_counterexample :
    ((" " : String) ≠ "") ∧
    (workerRun ⟨true, true, 5000⟩ (RecorderResult.text " ") false).2 = none :=
  ⟨by decide, rfl⟩

/-- C8 amended: however the worker terminates (transcript, exception, or a
delivery that itself raises), it ends with `is_processing` and `is_recording`
false and the deadline cleared; it hands the transcript suffixed with one
trailing space to the text-injection call exactly when the transcript is
non-blank (non-empty after stripping whitespace). -/
theorem worker_clears_state_and_delivers (s : Session) (res : RecorderResult)
    (deliveryRaises : Bool) :
    (workerRun s res deliveryRaises).1 = idleSession ∧
    (∀ t, res = RecorderResult.text t → pyStrip t ≠ "" →
        (workerRun s res deliveryRaises).2 = some (t ++ " ")) ∧
    (∀ t, res = RecorderResult.text t → pyStrip t = "" →
        (workerRun s res deliveryRaises).2 = none) ∧
    (res = RecorderResult.raises → (workerRun s res deliveryRaises).2 = none) := by
  refine ⟨?_, ?_, ?_, ?_⟩
  · cases res <;> rfl
  · intro t ht hstrip
    subst ht
    have hne : t ≠ "" := by
      intro h
      rw [h] at hstrip
      exact hstrip (by decide)
    simp [workerRun, deliveryGuard, hne, hstrip]
  · intro t ht hstrip
    subst ht
    simp [workerRun, deliveryGuard, hstrip]
  · intro h
    subst h
    rfl

theorem worker_clears_state_and_delivers_witness :
    (workerRun ⟨true, true, 77⟩ (RecorderResult.text "hi") true).1 = idleSession ∧
    (workerRun ⟨true, true, 77⟩ (RecorderResult.text "hi") true).2 = some "hi " :=
  ⟨(worker_clears_state_and_delivers ⟨true, true, 77⟩ (RecorderResult.text "hi") true).1,
   (worker_clears_state_and_delivers ⟨true, true, 77⟩ (RecorderResult.text "hi") true).2.1
     "hi" rfl (by decide)⟩

lemma foldl_parseCore_unrec : ∀ (l : List String) (acc : ParseAcc),
    (∀ p ∈ l, unrecognizedTok p) →
    l.foldl (fun a p => parseCore a (pyStrip p)) acc = acc
  | [], _, _ => rfl
  | p :: rest, acc, h => by
    obtain ⟨h1, h2, h3, h4⟩ := h p (List.mem_cons_self p rest)
    have hstep : parseCore acc (pyStrip p) = acc := by
      simp [parseCore, h1, h2, h3, h4]
    rw [List.foldl_cons, hstep]
    exact foldl_parseCore_unrec rest acc fun q hq => h q (List.mem_cons_of_mem p hq)

/-- C9: a token that is neither a known modifier name, a known key name, nor
a single alphanumeric character leaves the parser accumulator unchanged
(silently ignored); a resolving non-modifier token overwrites whatever
trigger was previously recorded, so the last resolving token wins; and a
combo of one modifier token surrounded by unrecognized tokens parses as a
modifier-only hotkey instead of failing. -/
theorem parse_token_handling :
    (∀ (acc : ParseAcc) (part : String), modifierLookup part = none →
        keyNameLookup part = none → ¬ isAlphaTok part → ¬ isDigitTok part →
        parseCore acc part = acc) ∧
    (∀ (acc : ParseAcc) (part : String) (c : Nat), modifierLookup part = none →
        triggerResolve part = some c →
        parseCore acc part = (acc.1, some (TriggerVal.key c))) ∧
    (∀ (pre post : List String) (tok : String) (ms : List Nat),
        (∀ p ∈ pre, unrecognizedTok p) → (∀ p ∈ post, unrecognizedTok p) →
        modifierLookup (pyStrip tok) = some ms →
        promoteModifierOnly (parseTokens (pre ++ tok :: post))
          = ([], some (TriggerVal.keys ms))) := by
  refine ⟨?_, ?_, ?_⟩
  · intro acc part h1 h2 h3 h4
    simp [parseCore, h1, h2, h3, h4]
  · intro acc part c h1 h2
    rw [triggerResolve] at h2
    cases hk : keyNameLookup part with
    | some c2 =>
      simp only [hk, Option.some.injEq] at h2
      subst h2
      simp [parseCore, h1, hk]
    | none =>
      simp only [hk] at h2
      by_cases ha : isAlphaTok part
      · rw [if_pos ha] at h2
        simp [parseCore, h1, hk, ha, h2]
      · rw [if_neg ha] at h2
        by_cases hd2 : isDigitTok part
        · rw [if_pos hd2] at h2
          simp [parseCore, h1, hk, ha, hd2, h2]
        · rw [if_neg hd2] at h2
          exact absurd h2 (by simp)
  · intro pre post tok ms hpre hpost hmod
    have hcore : parseCore ([], none) (pyStrip tok) = ([ms], none) := by
      simp [parseCore, hmod]
    rw [parseTokens, List.foldl_append, foldl_parseCore_unrec pre ([], none) hpre,
      List.foldl_cons, hcore, foldl_parseCore_unrec post ([ms], none) hpost]
    rfl

theorem parse_token_handling_witness :
    parseCore ([], none) "foo" = ([], none) ∧
    parseCore ([[29, 97]], some (TriggerVal.key 57)) "b"
      = ([[29, 97]], some (TriggerVal.key 48)) ∧
    promoteModifierOnly (parseTokens (["foo"] ++ "alt" :: ["bar"]))
      = ([], some (TriggerVal.keys [56, 100])) :=
  ⟨parse_token_handling.1 ([], none) "foo" (by decide) (by decide) (by decide) (by decide),
   parse_token_handling.2.1 ([[29, 97]], some (TriggerVal.key 57)) "b" 48
     (by decide) (by decide),
   parse_token_handling.2.2 ["foo"] ["bar"] "alt" [56, 100]
     (by decide) (by decide) (by decide)⟩

/-- C10: once startup succeeds (the hotkey parses to a trigger and initial
discovery finds at least one keyboard), `run_hotkey_listener` never reaches
an exit for any trace of loop inputs — read errors and enumeration errors
rebuild the device list and the loop keeps polling, even when rediscovery
returns an empty list; the fatal exit paths run only before the loop. -/
theorem listener_survives_device_loss (hotkey_str : String) (env : List RawDevice)
    (items : List LoopItem) (t : TriggerVal)
    (hp : (parse_hotkey_evdev hotkey_str).2 = some t)
    (hk : (find_keyboard_devices env).1 ≠ []) :
    (run_hotkey_listener hotkey_str env items).isOk = true := by
  have hke : ((find_keyboard_devices env).1).isEmpty = false := by
    cases h : (find_keyboard_devices env).1 with
    | nil => exact absurd h hk
    | cons a l => rfl
  unfold run_hotkey_listener
  simp only [hp, hke]
  rfl

theorem listener_survives_device_loss_witness :
    (run_hotkey_listener "a" [⟨3, RawOpen.ok [(1, [30, 44])]⟩]
        [LoopItem.readError [], LoopItem.ev 50 ⟨1, 30, 1⟩]).isOk = true :=
  listener_survives_device_loss "a" [⟨3, RawOpen.ok [(1, [30, 44])]⟩]
    [LoopItem.readError [], LoopItem.ev 50 ⟨1, 30, 1⟩] (TriggerVal.key 30)
    (by decide) (by decide)

end WhisperDictate
